import Mathlib

/-!
Verification development for the QuantumDash frontend (a React/TypeScript
single-page application).  The definitions below are a shallow embedding of
the client-side logic of the repository:

* the insight parser `parseKeyStatistics` of `src/pages/Dashboard.tsx`
  (a two-branch regex extractor over the AI response text),
* the analysis-result list operations of `uploadFile` / `fetchSummary`,
* the auth context of `src/context/AuthContext.tsx` (login / logout /
  restore-from-localStorage, with JSON serialization of the user record),
* the login, registration and OTP-verification handlers,
* the Dashboard UI state machine (modal steps, upload flow, profile modal),
  modelled as a step function over user events and asynchronous response
  events.

Strings are modelled as `List Char`; the JavaScript regexes are embedded as
specialized backtracking matchers that follow the engine's greedy/lazy
ordering for the concrete patterns appearing in the source.  Recursions that
are not structural carry an explicit fuel argument; every recursive step
consumes at least one character, so fuel equal to the input length always
suffices, and all definitions evaluate by kernel reduction.
-/

namespace QuantumDash

/-! ### Character-level helpers (JavaScript semantics) -/

/-- JavaScript whitespace (`\s`, `String.prototype.trim`), restricted to the
ASCII range: space, tab, newline, carriage return, form feed, vertical tab. -/
def isSpaceJS (c : Char) : Bool :=
  c = ' ' || c = '\t' || c = '\n' || c = '\r' || c = '\x0c' || c = '\x0b'

/-- JavaScript word character (`\w`): ASCII letters, digits, underscore. -/
def isWordChar (c : Char) : Bool :=
  ('a' ≤ c && c ≤ 'z') || ('A' ≤ c && c ≤ 'Z') || ('0' ≤ c && c ≤ '9') || c = '_'

/-- ASCII lower-casing, as used by the case-insensitive (`i`) regex flag on
the ASCII-only literals of the source patterns. -/
def toLowerAscii (c : Char) : Char :=
  if 'A' ≤ c && c ≤ 'Z' then Char.ofNat (c.toNat + 32) else c

/-- Case-insensitive character comparison for the `i` regex flag. -/
def ciEqChar (a b : Char) : Bool :=
  toLowerAscii a = toLowerAscii b

/-- Case-insensitive literal-prefix test: does `cs` start with `pat`
up to ASCII case? -/
def ciPrefix : List Char → List Char → Bool
  | [], _ => true
  | _ :: _, [] => false
  | p :: ps, c :: cs => ciEqChar p c && ciPrefix ps cs

/-- Case-sensitive literal-prefix test. -/
def litPrefix : List Char → List Char → Bool
  | [], _ => true
  | _ :: _, [] => false
  | p :: ps, c :: cs => (p = c : Bool) && litPrefix ps cs

/-- Substring containment, as `String.prototype.includes`. -/
def containsSub (needle : List Char) : List Char → Bool
  | [] => litPrefix needle []
  | c :: cs => litPrefix needle (c :: cs) || containsSub needle cs

/-! ### The insight parser `parseKeyStatistics` (Dashboard.tsx, lines 36-70)

Main branch: `rawText.match(/## Key Statistics\n*(.*?)\n*## Data Quality
Assessment/is)`.  The engine takes the first start position at which the
whole pattern matches; there the greedy `\n*` consumes the maximal newline
run (any decomposition succeeding with fewer newlines also succeeds with the
maximal run, since the dotall lazy group can absorb newlines, so the greedy
quantifier never has to give characters back), the lazy `(.*?)` grows to the
earliest point from which `\n*## Data Quality Assessment` (greedy newlines,
then the case-insensitive literal) matches, and that prefix is the capture.
-/

/-- The first literal of the main pattern, 17 characters. -/
def ksLit1 : List Char := "## Key Statistics".toList

/-- The second literal of the main pattern. -/
def ksLit2 : List Char := "## Data Quality Assessment".toList

/-- Can the tail of the main pattern, `\n*## Data Quality Assessment`, match
at this suffix?  (Some prefix of newlines followed by the literal, up to
case.) -/
def ksEndsHere : List Char → Bool
  | [] => false
  | c :: cs => ciPrefix ksLit2 (c :: cs) || ((c = '\n' : Bool) && ksEndsHere cs)

/-- Lazy capture: the shortest prefix of `cs` after which
`\n*## Data Quality Assessment` matches; `none` if no such point exists. -/
def ksCapture : List Char → Option (List Char)
  | [] => none
  | c :: cs =>
    if ksEndsHere (c :: cs) then some []
    else (ksCapture cs).map (fun m => c :: m)

/-- The whole main-pattern match: scan for the first position where
`## Key Statistics` (case-insensitive) matches and the rest of the pattern
succeeds; return group 1. -/
def ksScan : List Char → Option (List Char)
  | [] => none
  | c :: cs =>
    if ciPrefix ksLit1 (c :: cs) then
      match ksCapture ((List.drop ksLit1.length (c :: cs)).dropWhile (fun x => x = '\n')) with
      | some cap => some cap
      | none => ksScan cs
    else ksScan cs

/-! Fallback branch: `rawText.match(/[-•].*?(?=\n\n|\n(##|$))/gs)` — every
(leftmost, non-overlapping) occurrence of a `-` or `•` character followed by
the shortest dotall run after which the lookahead `\n\n`, `\n##` or
`\n`-then-end succeeds.  `String.match` with `g` returns the list of matched
substrings, or `null` (here: `[]`) when there is none. -/

/-- The lookahead `(?=\n\n|\n(##|$))` at a given suffix. -/
def bulletLookahead : List Char → Bool
  | '\n' :: '\n' :: _ => true
  | '\n' :: '#' :: '#' :: _ => true
  | ['\n'] => true
  | _ => false

/-- Lazy `.*?` after the bullet character: the shortest consumed middle
after which the lookahead holds, together with the unconsumed rest (the
lookahead consumes nothing). -/
def bulletEnd : List Char → Option (List Char × List Char)
  | [] => none
  | c :: cs =>
    if bulletLookahead (c :: cs) then some ([], c :: cs)
    else (bulletEnd cs).map (fun p => (c :: p.1, p.2))

/-- All matches of the global bullet pattern.  The scan moves one character
at a time; at a `-`/`•` whose lazy extension succeeds, the match is emitted
and scanning resumes at the match end (`lastIndex`).  Each step consumes at
least one character, so fuel equal to the input length suffices. -/
def bulletMatchesF : Nat → List Char → List (List Char)
  | 0, _ => []
  | _ + 1, [] => []
  | fuel + 1, c :: cs =>
    if c = '-' || c = '•' then
      match bulletEnd cs with
      | some (mid, rest) => (c :: mid) :: bulletMatchesF fuel rest
      | none => bulletMatchesF fuel cs
    else bulletMatchesF fuel cs

/-- All matches of `/[-•].*?(?=\n\n|\n(##|$))/gs` over the input. -/
def bulletMatches (cs : List Char) : List (List Char) :=
  bulletMatchesF cs.length cs

/-! The cleaning chain of the main branch. -/

/-- Step `.replace(/### \w+ Insights:/g, "")`: if the suffix starts with
`### `, then one or more word characters, then ` Insights:`, return the rest
after that whole match.  (The greedy `\w+` cannot stop before the maximal
word run, because the next pattern character is a space.) -/
def subheadingAt (cs : List Char) : Option (List Char) :=
  if litPrefix "### ".toList cs then
    let afterHash := List.drop 4 cs
    let run := afterHash.takeWhile isWordChar
    let afterRun := afterHash.dropWhile isWordChar
    if run ≠ [] && litPrefix " Insights:".toList afterRun then
      some (List.drop 10 afterRun)
    else none
  else none

/-- Global removal of `### <word> Insights:` sub-headings.  Fuel: every step
consumes at least one character. -/
def removeSubheadingsF : Nat → List Char → List Char
  | 0, _ => []
  | _ + 1, [] => []
  | fuel + 1, c :: cs =>
    match subheadingAt (c :: cs) with
    | some rest => removeSubheadingsF fuel rest
    | none => c :: removeSubheadingsF fuel cs

/-- Step `.replace(/### \w+ Insights:/g, "")`. -/
def removeSubheadings (cs : List Char) : List Char :=
  removeSubheadingsF cs.length cs

/-- Step `.replace(/\*\*/g, "")`: drop every (leftmost, non-overlapping)
pair of asterisks. -/
def removeBold : List Char → List Char
  | '*' :: '*' :: cs => removeBold cs
  | c :: cs => c :: removeBold cs
  | [] => []

/-- Step `.replace(/^- /gm, "• ")`: with the `m` flag, `^` matches at the
start of the text and after every line terminator (`\n` or `\r`). -/
def dashToBullet : Bool → List Char → List Char
  | _, [] => []
  | true, '-' :: ' ' :: cs => '•' :: ' ' :: dashToBullet false cs
  | _, c :: cs => c :: dashToBullet (c = '\n' || c = '\r') cs

/-- For `.replace(/\n\s*\n/g, "\n")`: scan the whitespace run after a
newline and return the suffix right after the last newline inside that run
(`none` when the run contains no newline, i.e. the pattern does not match
here). -/
def afterLastNewline : List Char → Option (List Char)
  | [] => none
  | c :: cs =>
    if isSpaceJS c then
      if c = '\n' then
        some (match afterLastNewline cs with
              | some r => r
              | none => cs)
      else afterLastNewline cs
    else none

/-- Step `.replace(/\n\s*\n/g, "\n")`: each match is a newline, a greedy
whitespace run, and a final newline (the last newline reachable through
whitespace); it is replaced by a single newline and scanning resumes after
the match.  Fuel: every step consumes at least one character. -/
def collapseNewlinesF : Nat → List Char → List Char
  | 0, _ => []
  | _ + 1, [] => []
  | fuel + 1, c :: cs =>
    if c = '\n' then
      match afterLastNewline cs with
      | some r => '\n' :: collapseNewlinesF fuel r
      | none => c :: collapseNewlinesF fuel cs
    else c :: collapseNewlinesF fuel cs

/-- Step `.replace(/\n\s*\n/g, "\n")`. -/
def collapseNewlines (cs : List Char) : List Char :=
  collapseNewlinesF cs.length cs

/-- `String.prototype.trim`: drop whitespace from both ends. -/
def trimJS (cs : List Char) : List Char :=
  (((cs.dropWhile isSpaceJS).reverse).dropWhile isSpaceJS).reverse

/-- `String.prototype.split('\n')`: split at every newline, keeping empty
segments. -/
def splitNl : List Char → List (List Char)
  | [] => [[]]
  | '\n' :: cs => [] :: splitNl cs
  | c :: cs =>
    match splitNl cs with
    | [] => [[c]]
    | l :: ls => (c :: l) :: ls

/-- The cleaning chain applied to the captured section in the main branch:
remove sub-headings, remove bold markers, turn line-leading dashes into
bullets, collapse blank runs, trim, split on newlines, and drop lines that
are empty after trimming. -/
def cleanInsightLines (cap : List Char) : List (List Char) :=
  (splitNl (trimJS (collapseNewlines (dashToBullet true (removeBold (removeSubheadings cap)))))).filter
    (fun l => trimJS l ≠ [])

/-- The placeholder returned when both branches fail. -/
def ksPlaceholder : List Char := "Could not parse key statistics from AI response.".toList

/-- The fallback branch: map each bullet match through
`.replace(/[-•]\s*/, '').trim()` (the first `[-•]\s*` occurrence is the
leading bullet and its whitespace, since every match starts with a bullet
character) and keep non-empty lines; when the pattern found nothing, return
the placeholder. -/
def fallbackLines (cs : List Char) : List (List Char) :=
  match bulletMatches cs with
  | [] => [ksPlaceholder]
  | ms => (ms.map (fun m => trimJS (m.drop 1 |>.dropWhile isSpaceJS))).filter (fun l => l ≠ [])

/-- The parser `parseKeyStatistics` of Dashboard.tsx on character lists.
The main branch runs only when the regex matched with a non-empty (truthy)
group 1; otherwise the fallback branch runs.  (The `try`/`catch` of the
source cannot fire in this pure model.) -/
def parseKeyStatisticsL (cs : List Char) : List (List Char) :=
  match ksScan cs with
  | some cap => if cap = [] then fallbackLines cs else cleanInsightLines cap
  | none => fallbackLines cs

/-- `parseKeyStatistics` on strings. -/
def parseKeyStatistics (s : String) : List String :=
  (parseKeyStatisticsL s.toList).map (fun l => String.mk l)

/-! ### Claim-level definitions for the insight parser -/

/-- Does a line start with a `-` or `•` character? (the wording of claim C1's
characterization of the fallback scan). -/
def lineStartsBullet : List Char → Bool
  | [] => false
  | c :: _ => c = '-' || c = '•'

/-- Claim C1's hypothesis on the fallback: no line of the input starts with
`-` or `•`. -/
def noBulletLines (cs : List Char) : Bool :=
  (splitNl cs).all (fun l => !(lineStartsBullet l))

/-- Claim C1's hypothesis on the main branch: the section match failed —
no match, or an empty (falsy) capture. -/
def ksMainFails (cs : List Char) : Bool :=
  match ksScan cs with
  | none => true
  | some cap => cap = []

/-- Modelled from the claim C2 text: the captured section transformed by
removing sub-headings, removing bold markers, bulleting line-leading dashes,
collapsing blank runs, splitting on newlines, and dropping lines empty after
trimming — with no whole-text trim. -/
def claimC2Pipeline (cap : List Char) : List (List Char) :=
  (splitNl (collapseNewlines (dashToBullet true (removeBold (removeSubheadings cap))))).filter
    (fun l => trimJS l ≠ [])

/-- Modelled from the amended claim C2: the same transformation list with the
whole-text trim (present in the source) inserted before the split. -/
def amendedC2Pipeline (cap : List Char) : List (List Char) :=
  (splitNl (trimJS (collapseNewlines (dashToBullet true (removeBold (removeSubheadings cap)))))).filter
    (fun l => trimJS l ≠ [])

/-- Case-insensitive equality of two character lists. -/
def ciEqList : List Char → List Char → Bool
  | [], [] => true
  | a :: as_, b :: bs => ciEqChar a b && ciEqList as_ bs
  | _, _ => false

/-- Declarative hypothesis of claim C2: the input contains a
`## Key Statistics` heading followed (anywhere later) by a
`## Data Quality Assessment` heading, both up to ASCII case. -/
def ContainsHeadings (cs : List Char) : Prop :=
  ∃ pre l1 mid l2 post : List Char,
    ciEqList l1 ksLit1 = true ∧ ciEqList l2 ksLit2 = true ∧
    cs = pre ++ l1 ++ mid ++ l2 ++ post

/-! ### Lemmas about the main-pattern matcher -/

theorem ciEqList_length : ∀ {l pat : List Char}, ciEqList l pat = true → l.length = pat.length := by
  intro l
  induction l with
  | nil => intro pat h; cases pat with
    | nil => rfl
    | cons b bs => simp [ciEqList] at h
  | cons a as_ ih => intro pat h; cases pat with
    | nil => simp [ciEqList] at h
    | cons b bs =>
      simp only [ciEqList, Bool.and_eq_true] at h
      simp [List.length_cons, ih h.2]

theorem ciPrefix_of_ciEqList : ∀ {l pat : List Char} (rest : List Char),
    ciEqList l pat = true → ciPrefix pat (l ++ rest) = true := by
  intro l
  induction l with
  | nil => intro pat rest h; cases pat with
    | nil => simp [ciPrefix]
    | cons b bs => simp [ciEqList] at h
  | cons a as_ ih => intro pat rest h; cases pat with
    | nil => simp [ciEqList] at h
    | cons b bs =>
      simp only [ciEqList, Bool.and_eq_true] at h
      have hab : ciEqChar b a = true := by
        simpa [ciEqChar, eq_comm] using h.1
      simpa [ciPrefix, hab] using ih rest h.2

theorem ksCapture_isSome_of_suffix : ∀ {cs t : List Char},
    t <:+ cs → ksEndsHere t = true → (ksCapture cs).isSome = true := by
  intro cs
  induction cs with
  | nil =>
    intro t hsuf hend
    rw [List.suffix_nil] at hsuf
    subst hsuf
    simp [ksEndsHere] at hend
  | cons c cs ih =>
    intro t hsuf hend
    by_cases h : ksEndsHere (c :: cs) = true
    · simp [ksCapture, h]
    · have hb : ksEndsHere (c :: cs) = false := by
        simpa using h
      have hne : t ≠ c :: cs := by
        intro heq; exact h (heq ▸ hend)
      rcases List.suffix_cons_iff.mp hsuf with h1 | h2
      · exact absurd h1 hne
      · have hrec := ih h2 hend
        obtain ⟨v, hv⟩ := Option.isSome_iff_exists.mp hrec
        simp [ksCapture, hb, hv]

theorem ksEndsHere_append {l post : List Char} (h : ciEqList l ksLit2 = true) :
    ksEndsHere (l ++ post) = true := by
  cases l with
  | nil => simp [ciEqList, ksLit2] at h
  | cons c t =>
    have hp : ciPrefix ksLit2 ((c :: t) ++ post) = true := ciPrefix_of_ciEqList post h
    simp only [List.cons_append, ksEndsHere]
    rw [List.cons_append] at hp
    simp [hp]

theorem ciEqList_lit2_head {l : List Char} (h : ciEqList l ksLit2 = true) :
    ∃ c t, l = c :: t ∧ c ≠ '\n' := by
  cases l with
  | nil => simp [ciEqList, ksLit2] at h
  | cons c t =>
    refine ⟨c, t, rfl, ?_⟩
    intro hc
    subst hc
    simp [ciEqList, ksLit2, ciEqChar, toLowerAscii] at h

theorem suffix_dropWhile_nl (c : Char) (t' : List Char) (hc : c ≠ '\n') :
    ∀ {cs : List Char}, (c :: t') <:+ cs →
    (c :: t') <:+ (cs.dropWhile (fun x => x = '\n')) := by
  intro cs
  induction cs with
  | nil =>
    intro hsuf
    rw [List.suffix_nil] at hsuf
    cases hsuf
  | cons x xs ih =>
    intro hsuf
    rcases List.suffix_cons_iff.mp hsuf with h1 | h2
    · have hx : x ≠ '\n' := by
        intro hxe
        apply hc
        injection h1 with h1a _
        rw [h1a]
        exact hxe
      have hd : (x :: xs).dropWhile (fun y => y = '\n') = x :: xs := by
        simp [List.dropWhile_cons, hx]
      rw [hd]
      exact h1 ▸ List.suffix_refl _
    · by_cases hx : x = '\n'
      · have hd : (x :: xs).dropWhile (fun y => y = '\n') = xs.dropWhile (fun y => y = '\n') := by
          simp [List.dropWhile_cons, hx]
        rw [hd]
        exact ih h2
      · have hd : (x :: xs).dropWhile (fun y => y = '\n') = x :: xs := by
          simp [List.dropWhile_cons, hx]
        rw [hd]
        exact h2.trans (List.suffix_cons x xs)

theorem suffix_of_suffix_drop {t cs : List Char} {n : Nat}
    (hsuf : t <:+ cs) (hlen : n + t.length ≤ cs.length) : t <:+ cs.drop n := by
  obtain ⟨p, rfl⟩ := hsuf
  have hn : n ≤ p.length := by
    rw [List.length_append] at hlen
    omega
  rw [List.drop_append_of_le_length hn]
  exact List.suffix_append _ _

theorem ksScan_cons_isSome {a : Char} {R : List Char} {cap : List Char}
    (hpre : ciPrefix ksLit1 (a :: R) = true)
    (hcap : ksCapture ((List.drop ksLit1.length (a :: R)).dropWhile (fun x => x = '\n'))
        = some cap) :
    ksScan (a :: R) = some cap := by
  simp [ksScan, hpre, hcap]

theorem ksScan_isSome_of_headings : ∀ (pre l1 mid l2 post : List Char),
    ciEqList l1 ksLit1 = true → ciEqList l2 ksLit2 = true →
    (ksScan (pre ++ l1 ++ mid ++ l2 ++ post)).isSome = true := by
  intro pre
  induction pre with
  | nil =>
    intro l1 mid l2 post h1 h2
    cases l1 with
    | nil => simp [ciEqList, ksLit1] at h1
    | cons a as_ =>
      have hform : ([] : List Char) ++ (a :: as_) ++ mid ++ l2 ++ post
          = a :: (as_ ++ (mid ++ (l2 ++ post))) := by simp
      rw [hform]
      have hpre : ciPrefix ksLit1 (a :: (as_ ++ (mid ++ (l2 ++ post)))) = true := by
        have h := ciPrefix_of_ciEqList (mid ++ (l2 ++ post)) h1
        rw [List.cons_append] at h
        exact h
      have hlen : (a :: as_).length = ksLit1.length := ciEqList_length h1
      have hdrop : List.drop ksLit1.length (a :: (as_ ++ (mid ++ (l2 ++ post))))
          = mid ++ (l2 ++ post) := by
        have h : a :: (as_ ++ (mid ++ (l2 ++ post)))
            = (a :: as_) ++ (mid ++ (l2 ++ post)) := by simp
        rw [h, ← hlen, List.drop_left]
      obtain ⟨c, t, hshape, hcnl⟩ := ciEqList_lit2_head h2
      have hshape2 : l2 ++ post = c :: (t ++ post) := by
        rw [hshape, List.cons_append]
      have hsuf0 : (c :: (t ++ post)) <:+ (mid ++ (l2 ++ post)) := by
        rw [← hshape2]
        exact List.suffix_append _ _
      have hsuf1 : (c :: (t ++ post)) <:+ ((mid ++ (l2 ++ post)).dropWhile (fun x => x = '\n')) :=
        suffix_dropWhile_nl c (t ++ post) hcnl hsuf0
      have hend : ksEndsHere (c :: (t ++ post)) = true := by
        rw [← hshape2]
        exact ksEndsHere_append h2
      have hcap : (ksCapture ((mid ++ (l2 ++ post)).dropWhile (fun x => x = '\n'))).isSome
          = true :=
        ksCapture_isSome_of_suffix hsuf1 hend
      obtain ⟨cap, hcapEq⟩ := Option.isSome_iff_exists.mp hcap
      have hcap2 : ksCapture ((List.drop ksLit1.length
          (a :: (as_ ++ (mid ++ (l2 ++ post))))).dropWhile (fun x => x = '\n')) = some cap := by
        rw [hdrop]
        exact hcapEq
      rw [ksScan_cons_isSome hpre hcap2]
      rfl
  | cons p pre' ih =>
    intro l1 mid l2 post h1 h2
    have hl : (p :: pre') ++ l1 ++ mid ++ l2 ++ post
        = p :: (pre' ++ l1 ++ mid ++ l2 ++ post) := by
      simp only [List.cons_append]
    rw [hl]
    have ihx := ih l1 mid l2 post h1 h2
    generalize hX : pre' ++ l1 ++ mid ++ l2 ++ post = X at ihx ⊢
    by_cases hp : ciPrefix ksLit1 (p :: X) = true
    · cases hcap : ksCapture ((List.drop ksLit1.length (p :: X)).dropWhile
          (fun x => x = '\n')) with
      | some cap =>
        rw [ksScan_cons_isSome hp hcap]
        rfl
      | none =>
        have hstep : ksScan (p :: X) = ksScan X := by
          simp [ksScan, hp, hcap]
        rw [hstep]
        exact ihx
    · have hb : ciPrefix ksLit1 (p :: X) = false := by
        simpa using hp
      have hstep : ksScan (p :: X) = ksScan X := by
        simp [ksScan, hb]
      rw [hstep]
      exact ihx

theorem bulletMatchesF_nil_of_noBullets : ∀ (fuel : Nat) (ds : List Char),
    (∀ c ∈ ds, c ≠ '-' ∧ c ≠ '•') → bulletMatchesF fuel ds = [] := by
  intro fuel
  induction fuel with
  | zero => intro ds _; rfl
  | succ f ihf =>
    intro ds h
    cases ds with
    | nil => rfl
    | cons c cs =>
      have hc := h c (by simp)
      have hbool : (decide (c = '-') || decide (c = '•')) = false := by
        simp [hc.1, hc.2]
      simp only [bulletMatchesF, hbool, Bool.false_eq_true, if_false]
      exact ihf cs (fun x hx => h x (by simp [hx]))

/-! ### The auth context (AuthContext.tsx)

The user record `{ user_id, email, name, user_type }`, JSON serialization as
performed by `JSON.stringify` on `login` (string escaping: quote, backslash,
the named control escapes, `\u00XX` for other control characters; fields in
interface order), and the strict inverse parser modelling `JSON.parse` on
the strings the provider itself stores. -/

/-- The user record of the auth context. -/
structure UserR where
  user_id : String
  email : String
  name : String
  user_type : String
  deriving DecidableEq, Repr

/-- Lower-case hexadecimal digit, as emitted by `JSON.stringify`. -/
def hexDigit (n : Nat) : Char :=
  if n < 10 then Char.ofNat (48 + n) else Char.ofNat (87 + n)

/-- Value of a hexadecimal digit character. -/
def hexVal (c : Char) : Option Nat :=
  if '0' ≤ c && c ≤ '9' then some (c.toNat - 48)
  else if 'a' ≤ c && c ≤ 'f' then some (c.toNat - 87)
  else if 'A' ≤ c && c ≤ 'F' then some (c.toNat - 55)
  else none

/-- `JSON.stringify` escaping of one string character. -/
def escChar (c : Char) : List Char :=
  if c = '"' then ['\\', '"']
  else if c = '\\' then ['\\', '\\']
  else if c = '\x08' then ['\\', 'b']
  else if c = '\t' then ['\\', 't']
  else if c = '\n' then ['\\', 'n']
  else if c = '\x0c' then ['\\', 'f']
  else if c = '\r' then ['\\', 'r']
  else if c.toNat < 32 then
    ['\\', 'u', '0', '0', hexDigit (c.toNat / 16), hexDigit (c.toNat % 16)]
  else [c]

/-- `JSON.stringify` escaping of a string body. -/
def escString : List Char → List Char
  | [] => []
  | c :: cs => escChar c ++ escString cs

/-- JSON string-body parser (`JSON.parse` on the region between the opening
quote and the closing quote): returns the decoded characters and the rest of
the input after the closing quote. -/
def parseJString : List Char → Option (List Char × List Char)
  | [] => none
  | c :: rest =>
    if c = '"' then some ([], rest)
    else if c = '\\' then
      match rest with
      | [] => none
      | e :: rest2 =>
        if e = 'u' then
          match rest2 with
          | h1 :: h2 :: h3 :: h4 :: rest3 =>
            match hexVal h1, hexVal h2, hexVal h3, hexVal h4 with
            | some a, some b, some cc, some d =>
              (parseJString rest3).map
                (fun p => (Char.ofNat (4096 * a + 256 * b + 16 * cc + d) :: p.1, p.2))
            | _, _, _, _ => none
          | _ => none
        else if e = '"' then (parseJString rest2).map (fun p => ('"' :: p.1, p.2))
        else if e = '\\' then (parseJString rest2).map (fun p => ('\\' :: p.1, p.2))
        else if e = '/' then (parseJString rest2).map (fun p => ('/' :: p.1, p.2))
        else if e = 'b' then (parseJString rest2).map (fun p => ('\x08' :: p.1, p.2))
        else if e = 't' then (parseJString rest2).map (fun p => ('\t' :: p.1, p.2))
        else if e = 'n' then (parseJString rest2).map (fun p => ('\n' :: p.1, p.2))
        else if e = 'f' then (parseJString rest2).map (fun p => ('\x0c' :: p.1, p.2))
        else if e = 'r' then (parseJString rest2).map (fun p => ('\r' :: p.1, p.2))
        else none
    else (parseJString rest).map (fun p => (c :: p.1, p.2))

theorem hexVal_hexDigit : ∀ n : Fin 16, hexVal (hexDigit n.val) = some n.val := by decide

theorem parseJString_u (h1 h2 h3 h4 : Char) (a b cc d : Nat) (X : List Char)
    (e1 : hexVal h1 = some a) (e2 : hexVal h2 = some b) (e3 : hexVal h3 = some cc)
    (e4 : hexVal h4 = some d) :
    parseJString ('\\' :: 'u' :: h1 :: h2 :: h3 :: h4 :: X)
      = (parseJString X).map
          (fun p => (Char.ofNat (4096 * a + 256 * b + 16 * cc + d) :: p.1, p.2)) := by
  rw [parseJString.eq_def]
  simp [e1, e2, e3, e4]

theorem parseJString_plain (c : Char) (X : List Char) (h1 : c ≠ '"') (h2 : c ≠ '\\') :
    parseJString (c :: X) = (parseJString X).map (fun p => (c :: p.1, p.2)) := by
  rw [parseJString.eq_def]
  simp [h1, h2]

theorem parseJString_escString : ∀ (s rest : List Char),
    parseJString (escString s ++ '"' :: rest) = some (s, rest) := by
  intro s
  induction s with
  | nil =>
    intro rest
    show parseJString ([] ++ '"' :: rest) = _
    rw [List.nil_append, parseJString.eq_def]
    simp
  | cons c cs ih =>
    intro rest
    show parseJString ((escChar c ++ escString cs) ++ '"' :: rest) = _
    rw [List.append_assoc]
    by_cases h1 : c = '"'
    · subst h1
      rw [show escChar '"' = ['\\', '"'] from by decide]
      simp only [List.cons_append, List.nil_append]
      rw [parseJString.eq_def]
      simp [ih]
    · by_cases h2 : c = '\\'
      · subst h2
        rw [show escChar '\\' = ['\\', '\\'] from by decide]
        simp only [List.cons_append, List.nil_append]
        rw [parseJString.eq_def]
        simp [ih]
      · by_cases h3 : c = '\x08'
        · subst h3
          rw [show escChar '\x08' = ['\\', 'b'] from by decide]
          simp only [List.cons_append, List.nil_append]
          rw [parseJString.eq_def]
          simp [ih]
        · by_cases h4 : c = '\t'
          · subst h4
            rw [show escChar '\t' = ['\\', 't'] from by decide]
            simp only [List.cons_append, List.nil_append]
            rw [parseJString.eq_def]
            simp [ih]
          · by_cases h5 : c = '\n'
            · subst h5
              rw [show escChar '\n' = ['\\', 'n'] from by decide]
              simp only [List.cons_append, List.nil_append]
              rw [parseJString.eq_def]
              simp [ih]
            · by_cases h6 : c = '\x0c'
              · subst h6
                rw [show escChar '\x0c' = ['\\', 'f'] from by decide]
                simp only [List.cons_append, List.nil_append]
                rw [parseJString.eq_def]
                simp [ih]
              · by_cases h7 : c = '\r'
                · subst h7
                  rw [show escChar '\r' = ['\\', 'r'] from by decide]
                  simp only [List.cons_append, List.nil_append]
                  rw [parseJString.eq_def]
                  simp [ih]
                · by_cases h8 : c.toNat < 32
                  · have hdiv : c.toNat / 16 < 16 := by omega
                    have hmod : c.toNat % 16 < 16 := Nat.mod_lt _ (by norm_num)
                    have hle : escChar c
                        = ['\\', 'u', '0', '0', hexDigit (c.toNat / 16),
                           hexDigit (c.toNat % 16)] := by
                      simp [escChar, h1, h2, h3, h4, h5, h6, h7, h8]
                    rw [hle]
                    have e1 : hexVal (hexDigit (c.toNat / 16)) = some (c.toNat / 16) :=
                      hexVal_hexDigit ⟨c.toNat / 16, hdiv⟩
                    have e2 : hexVal (hexDigit (c.toNat % 16)) = some (c.toNat % 16) :=
                      hexVal_hexDigit ⟨c.toNat % 16, hmod⟩
                    have echar : Char.ofNat
                        (4096 * 0 + 256 * 0 + 16 * (c.toNat / 16) + c.toNat % 16) = c := by
                      have h0 : 4096 * 0 + 256 * 0 + 16 * (c.toNat / 16) + c.toNat % 16
                          = c.toNat := by omega
                      rw [h0, Char.ofNat_toNat]
                    simp only [List.cons_append, List.nil_append]
                    rw [parseJString_u '0' '0' (hexDigit (c.toNat / 16))
                      (hexDigit (c.toNat % 16)) 0 0 (c.toNat / 16) (c.toNat % 16) _
                      (by decide) (by decide) e1 e2]
                    rw [ih, Option.map_some', echar]
                  · have hle : escChar c = [c] := by
                      simp [escChar, h1, h2, h3, h4, h5, h6, h7, h8]
                    rw [hle]
                    simp only [List.cons_append, List.nil_append]
                    rw [parseJString_plain c _ h1 h2, ih, Option.map_some']

/-- Literal expectation: drop an exact prefix, or fail. -/
def expectLit : List Char → List Char → Option (List Char)
  | [], cs => some cs
  | _ :: _, [] => none
  | p :: ps, c :: cs => if c = p then expectLit ps cs else none

theorem expectLit_append : ∀ (l rest : List Char), expectLit l (l ++ rest) = some rest := by
  intro l
  induction l with
  | nil => intro rest; rfl
  | cons p ps ih => intro rest; simp [expectLit, ih]

/-- `JSON.stringify` of the user record, fields in interface order.  The
text is `{"user_id":"…","email":"…","name":"…","user_type":"…"}` with each
value escaped; it is assembled here with the closing quote of each value
split off so that the structure mirrors the parser. -/
def stringifyUser (u : UserR) : List Char :=
  "\x7b\"user_id\":\"".toList ++
    (escString u.user_id.toList ++ ('"' ::
      (",\"email\":\"".toList ++
        (escString u.email.toList ++ ('"' ::
          (",\"name\":\"".toList ++
            (escString u.name.toList ++ ('"' ::
              (",\"user_type\":\"".toList ++
                (escString u.user_type.toList ++ ('"' :: "\x7d".toList)))))))))))

/-- `JSON.parse` restricted to the object shape the provider itself stores:
the four string fields in interface order, then end of input. -/
def parseUser (cs : List Char) : Option UserR :=
  match expectLit "\x7b\"user_id\":\"".toList cs with
  | none => none
  | some r1 =>
    match parseJString r1 with
    | none => none
    | some (uid, r2) =>
      match expectLit ",\"email\":\"".toList r2 with
      | none => none
      | some r3 =>
        match parseJString r3 with
        | none => none
        | some (email, r4) =>
          match expectLit ",\"name\":\"".toList r4 with
          | none => none
          | some r5 =>
            match parseJString r5 with
            | none => none
            | some (name, r6) =>
              match expectLit ",\"user_type\":\"".toList r6 with
              | none => none
              | some r7 =>
                match parseJString r7 with
                | none => none
                | some (utype, r8) =>
                  match expectLit "\x7d".toList r8 with
                  | none => none
                  | some r9 =>
                    if r9 = [] then
                      some ⟨String.mk uid, String.mk email, String.mk name, String.mk utype⟩
                    else none

theorem parseUser_stringifyUser (u : UserR) : parseUser (stringifyUser u) = some u := by
  unfold parseUser stringifyUser
  simp only [expectLit_append, parseJString_escString]
  rfl

/-! ### Auth state, local storage, login / logout / restore -/

/-- The two localStorage slots the provider uses. -/
structure Storage where
  tokenSlot : Option String
  userSlot : Option String
  deriving DecidableEq, Repr

/-- The in-memory auth context state. -/
structure AuthState where
  user : Option UserR
  token : Option String
  deriving DecidableEq, Repr

/-- `isAuthenticated = !!token`: `null` and the empty string are falsy. -/
def isAuthenticated (a : AuthState) : Bool :=
  match a.token with
  | some t => t ≠ ""
  | none => false

/-- `login(userData, token)` (AuthContext.tsx): set both state fields and
persist the token and the JSON-serialized user to localStorage. -/
def loginOp (u : UserR) (t : String) : AuthState × Storage → AuthState × Storage :=
  fun _ => (⟨some u, some t⟩, ⟨some t, some (String.mk (stringifyUser u))⟩)

/-- `logout()` (AuthContext.tsx): clear both state fields and both slots. -/
def logoutOp : AuthState × Storage → AuthState × Storage :=
  fun _ => (⟨none, none⟩, ⟨none, none⟩)

/-- The provider's load-time restore: the `useState` initializer reads the
token slot, and the mount effect `if (storedToken && storedUser)` sets both
token and user only when both slots hold truthy values — a `null` slot and
an empty-string value are both falsy, in which case the user is not
restored and the token keeps its initializer value (the raw token slot). -/
def restoreAuth (s : Storage) : AuthState :=
  match s.tokenSlot, s.userSlot with
  | some t, some us =>
    if t ≠ "" ∧ us ≠ "" then { user := parseUser us.toList, token := some t }
    else { user := none, token := s.tokenSlot }
  | _, _ => { user := none, token := s.tokenSlot }

/-! ### Register / Login page handlers -/

/-- The client-side routes involved in the auth flows. -/
inductive Route where
  | login
  | register
  | dashboard
  deriving DecidableEq, Repr

/-- The register page's step. -/
inductive RegStep where
  | form
  | otp
  deriving DecidableEq, Repr

/-- The register page state (Register.tsx `useState` hooks). -/
structure RegPageState where
  step : RegStep
  email : String
  name : String
  password : String
  otp : String
  error : Option String
  successMessage : Option String
  isLoading : Bool
  deriving DecidableEq, Repr

/-- The register page's initial state. -/
def regInitState : RegPageState :=
  ⟨RegStep.form, "", "", "", "", none, none, false⟩

/-- The payload of `POST /auth/register/initiate`. -/
structure InitiateReq where
  name : String
  email : String
  password : String
  user_type : String
  deriving DecidableEq, Repr

/-- `String.prototype.length` counts UTF-16 code units: astral characters
count twice. -/
def utf16Len (s : String) : Nat :=
  (s.toList.map (fun c => if c.toNat ≥ 65536 then 2 else 1)).sum

/-- `handleRegisterSubmit` (Register.tsx lines 23-54): clear messages; block
with a fixed error when the password exceeds 72 UTF-16 units, otherwise send
one initiate request with name, email, password and `user_type "community"`.
Returns the updated page state and the request, if any. -/
def handleRegisterSubmit (st : RegPageState) : RegPageState × Option InitiateReq :=
  let st1 := { st with error := none, successMessage := none }
  if utf16Len st.password > 72 then
    ({ st1 with error := some "Password must be 72 characters or less." }, none)
  else
    ({ st1 with isLoading := true },
     some ⟨st.name, st.email, st.password, "community"⟩)

/-- `handleOtpSubmit` success path (Register.tsx lines 57-79): show a
success message and schedule navigation to `/login`; the auth context and
local storage are not touched (the page deliberately does not call
`login`). -/
def otpVerifySuccess (reg : RegPageState) (auth : AuthState) (store : Storage) :
    RegPageState × AuthState × Storage × Route :=
  ({ reg with
      isLoading := false
      error := none
      successMessage := some "Registration successful! Please log in." },
   auth, store, Route.login)

/-- `handleLogin` success path (Login.tsx lines 20-29): call
`login(data.user, data.access_token)` and navigate to the dashboard. -/
def handleLoginSuccess (u : UserR) (t : String) (p : AuthState × Storage) :
    (AuthState × Storage) × Route :=
  (loginOp u t p, Route.dashboard)

/-! ### The Dashboard component (Dashboard.tsx)

State, the `uploadFile` flow, the asynchronous response handlers, and a step
function over user events and response events.  Event enabledness models
pointer interaction: each modal renders a full-screen (`fixed inset-0`)
backdrop, so while any modal is shown the elements beneath it cannot be
clicked; a modal's own buttons exist only while that modal is rendered.
Asynchronous responses can arrive in any state. -/

/-- An analysis-result card.  The source stores strings (or React nodes
built from fixed strings); content is modelled as a string. -/
structure AnalysisResult where
  id : Nat
  title : String
  content : String
  deriving DecidableEq, Repr

/-- Cleaning options (types.ts).  The numeric `iqr_multiplier` is only
forwarded, never computed with; it is carried in tenths (the UI default 1.5
is 15). -/
structure CleaningOpts where
  remove_duplicates : Bool
  fill_missing_values : Bool
  remove_empty_rows : Bool
  remove_empty_columns : Bool
  clean_text : Bool
  standardize_column_names : Bool
  optimize_data_types : Bool
  remove_outliers : Bool
  iqr_multiplier_tenths : Nat
  normalize_numeric : Bool
  deriving DecidableEq, Repr

/-- The modal step of the upload/cleaning flow. -/
inductive ModalState where
  | closed
  | upload_prompt
  | cleaning_options
  deriving DecidableEq, Repr

/-- The outbound multipart request of `uploadFile`. -/
structure UploadReq where
  fileName : String
  user_id : String
  apply_cleaning : Bool
  options : Option CleaningOpts
  deriving DecidableEq, Repr

/-- The Dashboard component state (its `useState` hooks; the chat state is
independent and omitted). -/
structure DashState where
  modalStep : ModalState
  analysisResults : List AnalysisResult
  automatedInsights : Option (List String)
  isProfileModalOpen : Bool
  selectedFile : Option String
  isUploading : Bool
  uploadError : Option String
  deriving DecidableEq, Repr

/-- The initial Dashboard state: one Welcome card (its `Date.now()` id is
modelled as 0). -/
def dashInit : DashState :=
  ⟨ModalState.closed,
   [⟨0, "Welcome!", "Upload a file to get started."⟩],
   none, false, none, false, none⟩

/-- List update at the start of `uploadFile` (lines 146-150): prepend the
uploading card and drop every card titled `Welcome!`. -/
def startUploadResults (tempId : Nat) (fileName : String)
    (l : List AnalysisResult) : List AnalysisResult :=
  ⟨tempId, "Uploading \"" ++ fileName ++ "\"...",
    "Processing file and generating AI summary..."⟩ ::
  l.filter (fun r => r.title ≠ "Welcome!")

/-- On upload success (lines 155-157): the matching card's content becomes
the backend message. -/
def uploadSuccessResults (tempId : Nat) (msg : String)
    (l : List AnalysisResult) : List AnalysisResult :=
  l.map (fun r => if r.id = tempId then { r with content := msg } else r)

/-- On upload failure (lines 162-164). -/
def uploadFailureResults (tempId : Nat) (msg : String)
    (l : List AnalysisResult) : List AnalysisResult :=
  l.map (fun r => if r.id = tempId then { r with title := "Upload Failed", content := msg } else r)

/-- On summary success (lines 101-110): the matching card is replaced,
keeping its id. -/
def summarySuccessResults (tempId : Nat) (l : List AnalysisResult) : List AnalysisResult :=
  l.map (fun r =>
    if r.id = tempId then
      ⟨r.id, "Analysis Complete",
       "Key statistics are in the 'Automated Insights' panel. Chat with the AI assistant for more details."⟩
    else r)

/-- On summary failure (lines 116-118). -/
def summaryFailureResults (tempId : Nat) (msg : String)
    (l : List AnalysisResult) : List AnalysisResult :=
  l.map (fun r => if r.id = tempId then { r with title := "Summary Failed", content := msg } else r)

/-- Sign-in failure message (Login.tsx line 33): the response detail or the
fixed fallback. -/
def signinErrorMsg (detail : Option String) : String :=
  detail.getD "Invalid email or password"

/-- Upload failure message (Dashboard.tsx line 160). -/
def uploadErrorMsg (detail : Option String) : String :=
  detail.getD "File upload failed."

/-- Summary failure message (Dashboard.tsx lines 112-115): the detail or the
fixed fallback, except that any message containing `LM Studio` is replaced
by a fixed hint. -/
def summaryErrorMsg (detail : Option String) : String :=
  let m := detail.getD "Failed to fetch summary."
  if containsSub "LM Studio".toList m.toList = true then
    "AI server is not running. Please start LM Studio."
  else m

/-- `uploadFile` up to issuing the request (lines 123-154): the guard
branches return early (before the modal is closed and before the `finally`
block), the main branch closes the modal, resets error/insights, updates the
result list and emits one multipart request. -/
def uploadFileStart (auth : AuthState) (st : DashState) (applyCleaning : Bool)
    (opts : Option CleaningOpts) (tempId : Nat) : DashState × Option UploadReq :=
  if isAuthenticated auth = false ∨ auth.user = none then
    ({ st with uploadError := some "Please log in to upload files." }, none)
  else
    match st.selectedFile with
    | none => ({ st with uploadError := some "No file selected." }, none)
    | some f =>
      ({ st with
          modalStep := ModalState.closed
          isUploading := true
          uploadError := none
          automatedInsights := none
          analysisResults := startUploadResults tempId f st.analysisResults },
       some ⟨f, ((auth.user.map (fun u => u.user_id)).getD ""), applyCleaning,
         if applyCleaning then opts else none⟩)

/-- Upload response success handler (before `fetchSummary` is awaited). -/
def uploadSuccessStep (tempId : Nat) (msg : String) (st : DashState) : DashState :=
  { st with analysisResults := uploadSuccessResults tempId msg st.analysisResults }

/-- Upload response failure handler (the `catch` of `uploadFile`). -/
def uploadFailureStep (tempId : Nat) (detail : Option String) (st : DashState) : DashState :=
  let m := uploadErrorMsg detail
  { st with
      uploadError := some m
      analysisResults := uploadFailureResults tempId m st.analysisResults
      automatedInsights := some ["Failed to load insights. " ++ m] }

/-- Summary response success handler (`fetchSummary` try branch). -/
def summarySuccessStep (tempId : Nat) (aiText : String) (st : DashState) : DashState :=
  { st with
      automatedInsights := some (parseKeyStatistics aiText)
      analysisResults := summarySuccessResults tempId st.analysisResults }

/-- Summary response failure handler (`fetchSummary` catch branch). -/
def summaryFailureStep (tempId : Nat) (detail : Option String) (st : DashState) : DashState :=
  let m := summaryErrorMsg detail
  { st with
      analysisResults := summaryFailureResults tempId m st.analysisResults
      automatedInsights := some ["Failed to load insights. " ++ m] }

/-- The `finally` block of `uploadFile`: it runs after the whole upload
(and, on success, the awaited summary fetch) settles. -/
def finallyStep (st : DashState) : DashState :=
  { st with isUploading := false, selectedFile := none }

/-- User events (clicks, file selection) and asynchronous response events of
the Dashboard. -/
inductive DashEvent where
  | selectFile (f : String)
  | zoneClickNoAuth
  | confirmCleanDialog
  | uploadAsIs (tempId : Nat)
  | applyCleaning (o : CleaningOpts) (tempId : Nat)
  | cancelCleaning
  | openProfile
  | closeProfile
  | uploadRespOk (tempId : Nat) (msg : String)
  | uploadRespErr (tempId : Nat) (detail : Option String)
  | summaryRespOk (tempId : Nat) (aiText : String)
  | summaryRespErr (tempId : Nat) (detail : Option String)
  deriving DecidableEq, Repr

/-- Is any full-screen modal backdrop shown? -/
def anyOverlay (st : DashState) : Bool :=
  !(st.modalStep = ModalState.closed) || st.isProfileModalOpen

/-- Which events can fire in a state: clicking the upload zone or the
profile icon needs no overlay above them; a modal's buttons exist only while
it is rendered; responses can arrive at any time.  The upload zone opens the
file dialog only for authenticated users (`handleUploadClick`). -/
def eventEnabled (auth : AuthState) (st : DashState) : DashEvent → Bool
  | DashEvent.selectFile _ => !(anyOverlay st) && isAuthenticated auth
  | DashEvent.zoneClickNoAuth => !(anyOverlay st) && !(isAuthenticated auth)
  | DashEvent.confirmCleanDialog => st.modalStep = ModalState.upload_prompt
  | DashEvent.uploadAsIs _ => st.modalStep = ModalState.upload_prompt
  | DashEvent.applyCleaning _ _ => st.modalStep = ModalState.cleaning_options
  | DashEvent.cancelCleaning => st.modalStep = ModalState.cleaning_options
  | DashEvent.openProfile => !(anyOverlay st)
  | DashEvent.closeProfile => st.isProfileModalOpen
  | DashEvent.uploadRespOk _ _ => true
  | DashEvent.uploadRespErr _ _ => true
  | DashEvent.summaryRespOk _ _ => true
  | DashEvent.summaryRespErr _ _ => true

/-- The effect of an event, with the multipart request it emits, if any. -/
def eventEffect (auth : AuthState) (st : DashState) : DashEvent → DashState × Option UploadReq
  | DashEvent.selectFile f =>
    ({ st with
        uploadError := none
        selectedFile := some f
        modalStep := ModalState.upload_prompt }, none)
  | DashEvent.zoneClickNoAuth =>
    ({ st with uploadError := some "Please log in or register to upload files." }, none)
  | DashEvent.confirmCleanDialog =>
    ({ st with modalStep := ModalState.cleaning_options }, none)
  | DashEvent.uploadAsIs tempId => uploadFileStart auth st false none tempId
  | DashEvent.applyCleaning o tempId => uploadFileStart auth st true (some o) tempId
  | DashEvent.cancelCleaning => ({ st with modalStep := ModalState.closed }, none)
  | DashEvent.openProfile => ({ st with isProfileModalOpen := true }, none)
  | DashEvent.closeProfile => ({ st with isProfileModalOpen := false }, none)
  | DashEvent.uploadRespOk tempId msg => (uploadSuccessStep tempId msg st, none)
  | DashEvent.uploadRespErr tempId detail => (finallyStep (uploadFailureStep tempId detail st), none)
  | DashEvent.summaryRespOk tempId aiText => (finallyStep (summarySuccessStep tempId aiText st), none)
  | DashEvent.summaryRespErr tempId detail => (finallyStep (summaryFailureStep tempId detail st), none)

/-- One step: a disabled event leaves the state unchanged and emits
nothing. -/
def stepE (auth : AuthState) (st : DashState) (e : DashEvent) : DashState × Option UploadReq :=
  if eventEnabled auth st e = true then eventEffect auth st e else (st, none)

/-- The state reached from the initial Dashboard state by a sequence of
events (the auth context is fixed for the session: no logout control is
reachable from the Dashboard). -/
def reach (auth : AuthState) (es : List DashEvent) : DashState :=
  es.foldl (fun st e => (stepE auth st e).1) dashInit

/-- A sample signed-in auth context. -/
def sampleAuth : AuthState :=
  ⟨some ⟨"u1", "u@example.com", "U", "community"⟩, some "tok"⟩

/-! ### Claim C1 -/

/-- C1 as stated is false on the code: in `"abc - def\n\nx"` the main section
match fails and no line starts with `-` or `•`, yet `parseKeyStatistics`
returns `["def"]` — the fallback regex `[-•].*?(?=\n\n|\n(##|$))` matches a
dash anywhere in a line, not only at line starts — instead of the
placeholder. -/
theorem claimC1_counterexample :
    ksMainFails ("abc - def\n\nx".toList) = true ∧
    noBulletLines ("abc - def\n\nx".toList) = true ∧
    parseKeyStatisticsL ("abc - def\n\nx".toList) ≠ [ksPlaceholder] := by
  refine ⟨by decide, by decide, by decide⟩

/-- C1 (amended): whenever the section match fails (no match or empty
capture) and the fallback bullet pattern `[-•].*?(?=\n\n|\n(##|$))` finds no
match at all, `parseKeyStatistics` returns exactly the one-element
placeholder list; in particular the fallback finds nothing when the input
contains no `-` or `•` character anywhere. -/
theorem claimC1_amended_placeholder :
    (∀ cs : List Char, ksMainFails cs = true → bulletMatches cs = [] →
      parseKeyStatisticsL cs = [ksPlaceholder]) ∧
    (∀ cs : List Char, (∀ c ∈ cs, c ≠ '-' ∧ c ≠ '•') → bulletMatches cs = []) := by
  constructor
  · intro cs h1 h2
    unfold parseKeyStatisticsL
    cases hscan : ksScan cs with
    | none => simp [fallbackLines, h2]
    | some cap =>
      have hdec : decide (cap = []) = true := by
        have hb : ksMainFails cs = decide (cap = []) := by
          unfold ksMainFails
          rw [hscan]
        rw [← hb]
        exact h1
      have hcap := of_decide_eq_true hdec
      subst hcap
      simp [fallbackLines, h2]
  · intro cs h
    exact bulletMatchesF_nil_of_noBullets cs.length cs h

/-- Witness for the amended C1 at concrete inputs. -/
theorem claimC1_amended_placeholder_witness :
    parseKeyStatisticsL ("hello".toList) = [ksPlaceholder] ∧
    bulletMatches ("xy".toList) = [] :=
  ⟨claimC1_amended_placeholder.1 ("hello".toList) (by decide) (by decide),
   claimC1_amended_placeholder.2 ("xy".toList) (by decide)⟩

/-! ### Claim C2 -/

/-- C2 as stated is false on the code: on
`"## Key Statistics\n  stat one\n## Data Quality Assessment"` the capture is
`"  stat one"`, and the source additionally trims the cleaned text before
splitting (`.trim()`), so the code yields `["stat one"]` while the claim's
transformation list (which omits the trim) yields `["  stat one"]`. -/
theorem claimC2_counterexample :
    ksScan ("## Key Statistics\n  stat one\n## Data Quality Assessment".toList)
      = some ("  stat one".toList) ∧
    ("  stat one".toList ≠ ([] : List Char)) ∧
    parseKeyStatisticsL ("## Key Statistics\n  stat one\n## Data Quality Assessment".toList)
      ≠ claimC2Pipeline ("  stat one".toList) := by
  refine ⟨by decide, by decide, by decide⟩

/-- C2 (amended): an input containing the two headings always makes the
section match succeed; and whenever the match succeeds with a non-empty
capture, `parseKeyStatistics` returns the capture transformed by the claim's
transformation list with the whole-text trim inserted before the split. -/
theorem claimC2_amended_mainBranch :
    (∀ cs : List Char, ContainsHeadings cs → (ksScan cs).isSome = true) ∧
    (∀ cs cap : List Char, ksScan cs = some cap → cap ≠ [] →
      parseKeyStatisticsL cs = amendedC2Pipeline cap) := by
  constructor
  · rintro cs ⟨pre, l1, mid, l2, post, h1, h2, rfl⟩
    exact ksScan_isSome_of_headings pre l1 mid l2 post h1 h2
  · intro cs cap hscan hne
    unfold parseKeyStatisticsL
    rw [hscan]
    simp [hne, cleanInsightLines, amendedC2Pipeline]

/-! ### Claim C3 -/

theorem mem_map_id_preserved (l : List AnalysisResult) (g : AnalysisResult → AnalysisResult)
    (hg : ∀ r, (g r).id = r.id) (r : AnalysisResult) (hr : r ∈ l) :
    ∃ r', r' ∈ l.map g ∧ r'.id = r.id :=
  ⟨g r, List.mem_map_of_mem g hr, hg r⟩

/-- C3 as stated is false on the code: starting an upload removes every card
titled `Welcome!` — from the initial list, the Welcome card (id 0) is
present before `uploadFile` runs and no card with its id remains after. -/
theorem claimC3_counterexample :
    (AnalysisResult.mk 0 "Welcome!" "Upload a file to get started.") ∈ dashInit.analysisResults ∧
    (∀ r ∈ (uploadFileStart sampleAuth { dashInit with selectedFile := some "data.csv" }
        false none 1).1.analysisResults, r.id ≠ 0) := by
  refine ⟨by decide, by decide⟩

/-- C3 (amended): the four asynchronous update operations (upload success and
failure, summary success and failure) preserve every element up to same-id
title/content updates; starting an upload prepends the uploading card and
preserves every element except the cards titled `Welcome!`, which it
removes. -/
theorem claimC3_amended_append_only :
    (∀ (l : List AnalysisResult) (tid : Nat) (msg : String) (r : AnalysisResult),
      r ∈ l → ∃ r', r' ∈ uploadSuccessResults tid msg l ∧ r'.id = r.id) ∧
    (∀ (l : List AnalysisResult) (tid : Nat) (msg : String) (r : AnalysisResult),
      r ∈ l → ∃ r', r' ∈ uploadFailureResults tid msg l ∧ r'.id = r.id) ∧
    (∀ (l : List AnalysisResult) (tid : Nat) (r : AnalysisResult),
      r ∈ l → ∃ r', r' ∈ summarySuccessResults tid l ∧ r'.id = r.id) ∧
    (∀ (l : List AnalysisResult) (tid : Nat) (msg : String) (r : AnalysisResult),
      r ∈ l → ∃ r', r' ∈ summaryFailureResults tid msg l ∧ r'.id = r.id) ∧
    (∀ (l : List AnalysisResult) (tid : Nat) (f : String) (r : AnalysisResult),
      r ∈ l → r.title ≠ "Welcome!" → r ∈ startUploadResults tid f l) := by
  refine ⟨?_, ?_, ?_, ?_, ?_⟩
  · intro l tid msg r hr
    refine mem_map_id_preserved l _ ?_ r hr
    intro r'
    by_cases h : r'.id = tid <;> simp [h]
  · intro l tid msg r hr
    refine mem_map_id_preserved l _ ?_ r hr
    intro r'
    by_cases h : r'.id = tid <;> simp [h]
  · intro l tid r hr
    refine mem_map_id_preserved l _ ?_ r hr
    intro r'
    by_cases h : r'.id = tid <;> simp [h]
  · intro l tid msg r hr
    refine mem_map_id_preserved l _ ?_ r hr
    intro r'
    by_cases h : r'.id = tid <;> simp [h]
  · intro l tid f r hr ht
    unfold startUploadResults
    refine List.mem_cons_of_mem _ ?_
    refine List.mem_filter.mpr ⟨hr, ?_⟩
    simp [ht]

/-- Witness for the amended C3 at a concrete list. -/
theorem claimC3_amended_append_only_witness :
    (∃ r', r' ∈ uploadSuccessResults 3 "m" [⟨3, "T", "C"⟩] ∧
      r'.id = (AnalysisResult.mk 3 "T" "C").id) ∧
    (AnalysisResult.mk 3 "T" "C") ∈ startUploadResults 9 "f.csv" [⟨3, "T", "C"⟩] :=
  ⟨claimC3_amended_append_only.1 [⟨3, "T", "C"⟩] 3 "m" ⟨3, "T", "C"⟩ (by simp),
   claimC3_amended_append_only.2.2.2.2 [⟨3, "T", "C"⟩] 9 "f.csv" ⟨3, "T", "C"⟩
     (by simp) (by decide)⟩

/-! ### Claim C5 -/

/-- C5: upload proceeds only with a selected file and an authenticated user —
when the user is not authenticated or no file is selected, no request is
issued, an error message is set and the analysis-result list is unchanged;
and a request is only ever issued when the user is authenticated and a file
is selected. -/
theorem claimC5_upload_guards :
    ∀ (auth : AuthState) (st : DashState) (b : Bool) (opts : Option CleaningOpts) (tid : Nat),
      ((isAuthenticated auth = false ∨ st.selectedFile = none) →
        (uploadFileStart auth st b opts tid).2 = none ∧
        (uploadFileStart auth st b opts tid).1.analysisResults = st.analysisResults ∧
        (uploadFileStart auth st b opts tid).1.uploadError.isSome = true) ∧
      ((uploadFileStart auth st b opts tid).2.isSome = true →
        isAuthenticated auth = true ∧ st.selectedFile.isSome = true) := by
  intro auth st b opts tid
  by_cases hg : (isAuthenticated auth = false ∨ auth.user = none)
  · constructor
    · intro _
      simp [uploadFileStart, hg]
    · intro h
      simp [uploadFileStart, hg] at h
  · constructor
    · intro h
      have hfile : st.selectedFile = none := by
        rcases h with h | h
        · exact absurd (Or.inl h) hg
        · exact h
      simp [uploadFileStart, hg, hfile]
    · intro _
      constructor
      · rcases Bool.eq_false_or_eq_true (isAuthenticated auth) with ht | hf
        · exact ht
        · exact absurd (Or.inl hf) hg
      · cases hfile : st.selectedFile with
        | none =>
          exfalso
          have h2 := ‹(uploadFileStart auth st b opts tid).2.isSome = true›
          simp [uploadFileStart, hg, hfile] at h2
        | some f => rfl

/-- Witness for C5 at a concrete signed-out state. -/
theorem claimC5_upload_guards_witness :
    (uploadFileStart ⟨none, none⟩ dashInit false none 1).2 = none ∧
    (uploadFileStart ⟨none, none⟩ dashInit false none 1).1.analysisResults
      = dashInit.analysisResults := by
  have h := (claimC5_upload_guards ⟨none, none⟩ dashInit false none 1).1 (Or.inl rfl)
  exact ⟨h.1, h.2.1⟩

/-! ### Claim C7 -/

/-- C7 as stated is false on the code: a summary-fetch failure whose backend
detail contains `LM Studio` is not displayed as-is — it is rewritten to a
fixed hint string. -/
theorem claimC7_counterexample :
    summaryErrorMsg (some "LM Studio is down") ≠ "LM Studio is down" ∧
    summaryErrorMsg (some "LM Studio is down")
      = "AI server is not running. Please start LM Studio." := by
  refine ⟨by decide, by decide⟩

/-- C7 (amended): sign-in and upload failures surface exactly the backend
detail when present and a fixed fallback otherwise; the summary fetch does
the same except that any message containing `LM Studio` is rewritten to the
fixed LM-Studio hint. -/
theorem claimC7_amended_error_messages :
    (∀ d : String, signinErrorMsg (some d) = d) ∧
    signinErrorMsg none = "Invalid email or password" ∧
    (∀ d : String, uploadErrorMsg (some d) = d) ∧
    uploadErrorMsg none = "File upload failed." ∧
    (∀ d : String, containsSub "LM Studio".toList d.toList = false →
      summaryErrorMsg (some d) = d) ∧
    (∀ d : String, containsSub "LM Studio".toList d.toList = true →
      summaryErrorMsg (some d) = "AI server is not running. Please start LM Studio.") ∧
    summaryErrorMsg none = "Failed to fetch summary." := by
  refine ⟨fun d => rfl, rfl, fun d => rfl, rfl, ?_, ?_, by decide⟩
  · intro d h
    show (if containsSub "LM Studio".toList d.toList = true then
        "AI server is not running. Please start LM Studio." else d) = d
    rw [h]
    simp
  · intro d h
    show (if containsSub "LM Studio".toList d.toList = true then
        "AI server is not running. Please start LM Studio." else d)
      = "AI server is not running. Please start LM Studio."
    rw [h]
    simp

/-- Witness for the amended C7 at concrete messages. -/
theorem claimC7_amended_error_messages_witness :
    summaryErrorMsg (some "boom") = "boom" ∧
    summaryErrorMsg (some "start LM Studio first")
      = "AI server is not running. Please start LM Studio." :=
  ⟨claimC7_amended_error_messages.2.2.2.2.1 "boom" (by decide),
   claimC7_amended_error_messages.2.2.2.2.2.1 "start LM Studio first" (by decide)⟩

/-! ### Claim C6 -/

/-- The Dashboard renders the upload modal iff `modalStep = 'upload_prompt'`
(line 257). -/
def showsUploadModal (st : DashState) : Bool :=
  st.modalStep = ModalState.upload_prompt

/-- The Dashboard renders the cleaning modal iff
`modalStep = 'cleaning_options'` (line 263). -/
def showsCleaningModal (st : DashState) : Bool :=
  st.modalStep = ModalState.cleaning_options

/-- The Dashboard renders the profile modal iff `isProfileModalOpen`
(line 270). -/
def showsProfileModal (st : DashState) : Bool :=
  st.isProfileModalOpen

/-- No two of the three modals are displayed together. -/
def atMostOneModal (st : DashState) : Bool :=
  !(showsUploadModal st && showsCleaningModal st) &&
  !(showsUploadModal st && showsProfileModal st) &&
  !(showsCleaningModal st && showsProfileModal st)

/-- The reachability invariant behind C6: the profile modal is only open
while the upload/cleaning modal state is `'closed'`. -/
def modalInv (st : DashState) : Bool :=
  st.modalStep = ModalState.closed || !st.isProfileModalOpen

theorem uploadFileStart_profile (auth : AuthState) (st : DashState) (b : Bool)
    (o : Option CleaningOpts) (tid : Nat) :
    (uploadFileStart auth st b o tid).1.isProfileModalOpen = st.isProfileModalOpen := by
  by_cases hg : (isAuthenticated auth = false ∨ auth.user = none)
  · simp [uploadFileStart, hg]
  · cases hf : st.selectedFile <;> simp [uploadFileStart, hg, hf]

theorem uploadFileStart_modalStep (auth : AuthState) (st : DashState) (b : Bool)
    (o : Option CleaningOpts) (tid : Nat) :
    (uploadFileStart auth st b o tid).1.modalStep = ModalState.closed ∨
    (uploadFileStart auth st b o tid).1.modalStep = st.modalStep := by
  by_cases hg : (isAuthenticated auth = false ∨ auth.user = none)
  · right; simp [uploadFileStart, hg]
  · cases hf : st.selectedFile
    · right; simp [uploadFileStart, hg, hf]
    · left; simp [uploadFileStart, hg, hf]

theorem stepE_preserves_modalInv (auth : AuthState) (st : DashState) (e : DashEvent)
    (h : modalInv st = true) : modalInv (stepE auth st e).1 = true := by
  unfold stepE
  by_cases he : eventEnabled auth st e = true
  · rw [if_pos he]
    cases e with
    | selectFile f =>
      have hov : anyOverlay st = false := by
        simp only [eventEnabled, Bool.and_eq_true, Bool.not_eq_true'] at he
        exact he.1
      have hprof : st.isProfileModalOpen = false := by
        simp only [anyOverlay, Bool.or_eq_false_iff] at hov
        exact hov.2
      simp [eventEffect, modalInv, hprof]
    | zoneClickNoAuth =>
      simpa [eventEffect, modalInv] using h
    | confirmCleanDialog =>
      have hm : st.modalStep = ModalState.upload_prompt := by
        simpa [eventEnabled] using he
      have hprof : st.isProfileModalOpen = false := by
        simp [modalInv, hm] at h
        exact h
      simp [eventEffect, modalInv, hprof]
    | uploadAsIs tid =>
      have hp := uploadFileStart_profile auth st false none tid
      rcases uploadFileStart_modalStep auth st false none tid with hm | hm
      · simp [eventEffect, modalInv, hm]
      · have : modalInv (uploadFileStart auth st false none tid).1
            = modalInv st := by
          simp [modalInv, hm, hp]
        simp only [eventEffect]
        rw [this]
        exact h
    | applyCleaning o tid =>
      have hp := uploadFileStart_profile auth st true (some o) tid
      rcases uploadFileStart_modalStep auth st true (some o) tid with hm | hm
      · simp [eventEffect, modalInv, hm]
      · have : modalInv (uploadFileStart auth st true (some o) tid).1
            = modalInv st := by
          simp [modalInv, hm, hp]
        simp only [eventEffect]
        rw [this]
        exact h
    | cancelCleaning =>
      simp [eventEffect, modalInv]
    | openProfile =>
      have hov : anyOverlay st = false := by
        simpa [eventEnabled] using he
      have hm : st.modalStep = ModalState.closed := by
        simp only [anyOverlay, Bool.or_eq_false_iff, Bool.not_eq_true'] at hov
        simpa using hov.1
      simp [eventEffect, modalInv, hm]
    | closeProfile =>
      simp [eventEffect, modalInv]
    | uploadRespOk tid msg =>
      simpa [eventEffect, uploadSuccessStep, modalInv] using h
    | uploadRespErr tid detail =>
      simpa [eventEffect, finallyStep, uploadFailureStep, modalInv] using h
    | summaryRespOk tid aiText =>
      simpa [eventEffect, finallyStep, summarySuccessStep, modalInv] using h
    | summaryRespErr tid detail =>
      simpa [eventEffect, finallyStep, summaryFailureStep, modalInv] using h
  · rw [if_neg he]
    exact h

theorem foldl_preserves_modalInv (auth : AuthState) : ∀ (es : List DashEvent) (st : DashState),
    modalInv st = true →
    modalInv (es.foldl (fun s e => (stepE auth s e).1) st) = true := by
  intro es
  induction es with
  | nil => intro st h; exact h
  | cons e es ih =>
    intro st h
    exact ih _ (stepE_preserves_modalInv auth st e h)

theorem atMostOneModal_of_modalInv (st : DashState) (h : modalInv st = true) :
    atMostOneModal st = true := by
  cases hm : st.modalStep with
  | closed =>
    simp [atMostOneModal, showsUploadModal, showsCleaningModal, showsProfileModal, hm]
  | upload_prompt =>
    have hprof : st.isProfileModalOpen = false := by
      simp [modalInv, hm] at h
      exact h
    simp [atMostOneModal, showsUploadModal, showsCleaningModal, showsProfileModal, hm, hprof]
  | cleaning_options =>
    have hprof : st.isProfileModalOpen = false := by
      simp [modalInv, hm] at h
      exact h
    simp [atMostOneModal, showsUploadModal, showsCleaningModal, showsProfileModal, hm, hprof]

/-- C6: in every Dashboard state reachable by user clicks and asynchronous
responses, at most one modal is displayed — the upload prompt and cleaning
dialog share one state variable, and the profile modal can only be opened
while nothing else is shown, since every modal renders a full-screen
backdrop that blocks the clicks that would open another. -/
theorem claimC6_modal_exclusion :
    ∀ (auth : AuthState) (es : List DashEvent), atMostOneModal (reach auth es) = true := by
  intro auth es
  exact atMostOneModal_of_modalInv _ (foldl_preserves_modalInv auth es dashInit rfl)

/-! ### Claim C9 -/

/-- C9 as stated is false on the code: a terminal action does not always
close the modal and emit a request.  If a second file is selected while an
earlier upload is still in flight, the earlier upload's `finally` block
clears `selectedFile`; the next "upload as-is" click then hits the
`!selectedFile` guard, which returns before `setModalStep('closed')` — the
modal stays open and no request is sent. -/
theorem claimC9_counterexample :
    (stepE sampleAuth
      (reach sampleAuth [DashEvent.selectFile "a.csv", DashEvent.uploadAsIs 1,
        DashEvent.selectFile "b.csv", DashEvent.uploadRespOk 1 "ok",
        DashEvent.summaryRespOk 1 "sum"])
      (DashEvent.uploadAsIs 2)).2 = none ∧
    (reach sampleAuth [DashEvent.selectFile "a.csv", DashEvent.uploadAsIs 1,
        DashEvent.selectFile "b.csv", DashEvent.uploadRespOk 1 "ok",
        DashEvent.summaryRespOk 1 "sum"]).modalStep = ModalState.upload_prompt ∧
    (stepE sampleAuth
      (reach sampleAuth [DashEvent.selectFile "a.csv", DashEvent.uploadAsIs 1,
        DashEvent.selectFile "b.csv", DashEvent.uploadRespOk 1 "ok",
        DashEvent.summaryRespOk 1 "sum"])
      (DashEvent.uploadAsIs 2)).1.modalStep = ModalState.upload_prompt := by
  refine ⟨by decide, by decide, by decide⟩

/-- C9 (amended): the modal machine is linear — `cleaning_options` is
entered only from `upload_prompt` via the confirm click, `upload_prompt`
only from `closed` via file selection — and a terminal action closes the
modal and emits exactly one multipart request provided the session is intact
(authenticated, user record present) and a file is still selected; when a
guard fails the action emits nothing. -/
theorem claimC9_amended_modal_machine :
    (∀ (auth : AuthState) (st : DashState) (e : DashEvent),
      (stepE auth st e).1.modalStep = ModalState.cleaning_options →
      st.modalStep ≠ ModalState.cleaning_options →
      st.modalStep = ModalState.upload_prompt ∧ e = DashEvent.confirmCleanDialog) ∧
    (∀ (auth : AuthState) (st : DashState) (e : DashEvent),
      (stepE auth st e).1.modalStep = ModalState.upload_prompt →
      st.modalStep ≠ ModalState.upload_prompt →
      st.modalStep = ModalState.closed ∧ ∃ f, e = DashEvent.selectFile f) ∧
    (∀ (auth : AuthState) (st : DashState) (tid : Nat),
      st.modalStep = ModalState.upload_prompt → isAuthenticated auth = true →
      auth.user ≠ none → st.selectedFile.isSome = true →
      (stepE auth st (DashEvent.uploadAsIs tid)).1.modalStep = ModalState.closed ∧
      (stepE auth st (DashEvent.uploadAsIs tid)).2.isSome = true) ∧
    (∀ (auth : AuthState) (st : DashState) (o : CleaningOpts) (tid : Nat),
      st.modalStep = ModalState.cleaning_options → isAuthenticated auth = true →
      auth.user ≠ none → st.selectedFile.isSome = true →
      (stepE auth st (DashEvent.applyCleaning o tid)).1.modalStep = ModalState.closed ∧
      (stepE auth st (DashEvent.applyCleaning o tid)).2.isSome = true) := by
  refine ⟨?_, ?_, ?_, ?_⟩
  · intro auth st e h hne
    by_cases he : eventEnabled auth st e = true
    · rw [stepE, if_pos he] at h
      cases e with
      | selectFile f => simp [eventEffect] at h
      | zoneClickNoAuth => exact absurd (by simpa [eventEffect] using h) hne
      | confirmCleanDialog =>
        exact ⟨by simpa [eventEnabled] using he, rfl⟩
      | uploadAsIs tid =>
        have h' : (uploadFileStart auth st false none tid).1.modalStep
            = ModalState.cleaning_options := h
        rcases uploadFileStart_modalStep auth st false none tid with hm | hm
        · rw [hm] at h'
          simp at h'
        · rw [hm] at h'
          exact absurd h' hne
      | applyCleaning o tid =>
        exact absurd (by simpa [eventEnabled] using he) hne
      | cancelCleaning => simp [eventEffect] at h
      | openProfile => exact absurd (by simpa [eventEffect] using h) hne
      | closeProfile => exact absurd (by simpa [eventEffect] using h) hne
      | uploadRespOk tid msg =>
        exact absurd (by simpa [eventEffect, uploadSuccessStep] using h) hne
      | uploadRespErr tid detail =>
        exact absurd (by simpa [eventEffect, finallyStep, uploadFailureStep] using h) hne
      | summaryRespOk tid aiText =>
        exact absurd (by simpa [eventEffect, finallyStep, summarySuccessStep] using h) hne
      | summaryRespErr tid detail =>
        exact absurd (by simpa [eventEffect, finallyStep, summaryFailureStep] using h) hne
    · rw [stepE, if_neg he] at h
      exact absurd h hne
  · intro auth st e h hne
    by_cases he : eventEnabled auth st e = true
    · rw [stepE, if_pos he] at h
      cases e with
      | selectFile f =>
        have hov : anyOverlay st = false := by
          simp only [eventEnabled, Bool.and_eq_true, Bool.not_eq_true'] at he
          exact he.1
        have hm : st.modalStep = ModalState.closed := by
          simp only [anyOverlay, Bool.or_eq_false_iff, Bool.not_eq_true'] at hov
          simpa using hov.1
        exact ⟨hm, f, rfl⟩
      | zoneClickNoAuth => exact absurd (by simpa [eventEffect] using h) hne
      | confirmCleanDialog => simp [eventEffect] at h
      | uploadAsIs tid =>
        have h' : (uploadFileStart auth st false none tid).1.modalStep
            = ModalState.upload_prompt := h
        rcases uploadFileStart_modalStep auth st false none tid with hm | hm
        · rw [hm] at h'
          simp at h'
        · rw [hm] at h'
          exact absurd h' hne
      | applyCleaning o tid =>
        have h' : (uploadFileStart auth st true (some o) tid).1.modalStep
            = ModalState.upload_prompt := h
        rcases uploadFileStart_modalStep auth st true (some o) tid with hm | hm
        · rw [hm] at h'
          simp at h'
        · rw [hm] at h'
          exact absurd h' hne
      | cancelCleaning => simp [eventEffect] at h
      | openProfile => exact absurd (by simpa [eventEffect] using h) hne
      | closeProfile => exact absurd (by simpa [eventEffect] using h) hne
      | uploadRespOk tid msg =>
        exact absurd (by simpa [eventEffect, uploadSuccessStep] using h) hne
      | uploadRespErr tid detail =>
        exact absurd (by simpa [eventEffect, finallyStep, uploadFailureStep] using h) hne
      | summaryRespOk tid aiText =>
        exact absurd (by simpa [eventEffect, finallyStep, summarySuccessStep] using h) hne
      | summaryRespErr tid detail =>
        exact absurd (by simpa [eventEffect, finallyStep, summaryFailureStep] using h) hne
    · rw [stepE, if_neg he] at h
      exact absurd h hne
  · intro auth st tid hm hauth huser hfile
    have he : eventEnabled auth st (DashEvent.uploadAsIs tid) = true := by
      simp [eventEnabled, hm]
    have hg : ¬ (isAuthenticated auth = false ∨ auth.user = none) := by
      intro hc
      rcases hc with hc | hc
      · rw [hauth] at hc; cases hc
      · exact huser hc
    obtain ⟨f, hf⟩ := Option.isSome_iff_exists.mp hfile
    constructor
    · rw [stepE, if_pos he]
      show (uploadFileStart auth st false none tid).1.modalStep = _
      simp [uploadFileStart, hg, hf]
    · rw [stepE, if_pos he]
      show (uploadFileStart auth st false none tid).2.isSome = true
      simp [uploadFileStart, hg, hf]
  · intro auth st o tid hm hauth huser hfile
    have he : eventEnabled auth st (DashEvent.applyCleaning o tid) = true := by
      simp [eventEnabled, hm]
    have hg : ¬ (isAuthenticated auth = false ∨ auth.user = none) := by
      intro hc
      rcases hc with hc | hc
      · rw [hauth] at hc; cases hc
      · exact huser hc
    obtain ⟨f, hf⟩ := Option.isSome_iff_exists.mp hfile
    constructor
    · rw [stepE, if_pos he]
      show (uploadFileStart auth st true (some o) tid).1.modalStep = _
      simp [uploadFileStart, hg, hf]
    · rw [stepE, if_pos he]
      show (uploadFileStart auth st true (some o) tid).2.isSome = true
      simp [uploadFileStart, hg, hf]

/-- Witness for the amended C9 at a concrete state. -/
theorem claimC9_amended_modal_machine_witness :
    (stepE sampleAuth
      { dashInit with modalStep := ModalState.upload_prompt, selectedFile := some "w.csv" }
      (DashEvent.uploadAsIs 7)).1.modalStep = ModalState.closed ∧
    (stepE sampleAuth
      { dashInit with modalStep := ModalState.upload_prompt, selectedFile := some "w.csv" }
      (DashEvent.uploadAsIs 7)).2.isSome = true :=
  claimC9_amended_modal_machine.2.2.1 sampleAuth
    { dashInit with modalStep := ModalState.upload_prompt, selectedFile := some "w.csv" }
    7 rfl (by decide) (by decide) rfl

/-! ### Claim C4 -/

/-- C4 as stated is false on the code: successful registration verification
(`handleOtpSubmit`) does not create a session — starting from a signed-out
context and empty storage, the auth state still has no user and no token
after the OTP request succeeds; the page only shows a message and navigates
to `/login`. -/
theorem claimC4_counterexample :
    (otpVerifySuccess regInitState ⟨none, none⟩ ⟨none, none⟩).2.1.user = none ∧
    (otpVerifySuccess regInitState ⟨none, none⟩ ⟨none, none⟩).2.1.token = none ∧
    (otpVerifySuccess regInitState ⟨none, none⟩ ⟨none, none⟩).2.2.1
      = Storage.mk none none := by
  refine ⟨rfl, rfl, rfl⟩

/-- C4 (amended): a session is created on successful login — the auth state
then holds the user and token and local storage persists them — but
successful registration verification creates no session: it leaves the auth
state and storage unchanged and redirects to the login page. -/
theorem claimC4_amended_session_on_login :
    (∀ (u : UserR) (t : String) (p : AuthState × Storage),
      (handleLoginSuccess u t p).1.1.user = some u ∧
      (handleLoginSuccess u t p).1.1.token = some t ∧
      (handleLoginSuccess u t p).1.2.tokenSlot = some t ∧
      (handleLoginSuccess u t p).1.2.userSlot = some (String.mk (stringifyUser u))) ∧
    (∀ (reg : RegPageState) (auth : AuthState) (store : Storage),
      (otpVerifySuccess reg auth store).2.1 = auth ∧
      (otpVerifySuccess reg auth store).2.2.1 = store ∧
      (otpVerifySuccess reg auth store).2.2.2 = Route.login) := by
  constructor
  · intro u t p
    exact ⟨rfl, rfl, rfl, rfl⟩
  · intro reg auth store
    exact ⟨rfl, rfl, rfl⟩

/-! ### Claim C8 -/

theorem stringifyUser_ne_empty (u : UserR) : String.mk (stringifyUser u) ≠ "" := by
  intro hc
  have hdata : stringifyUser u = [] := congrArg String.data hc
  have hlen : (stringifyUser u).length ≥ 1 := by
    unfold stringifyUser
    rw [List.length_append]
    have h12 : ("\x7b\"user_id\":\"".toList).length = 12 := by decide
    omega
  rw [hdata] at hlen
  simp at hlen

/-- C8 as stated is false on the code: after `login(u, "")` the stored
token is the empty string, which is falsy, so the mount effect's
`if (storedToken && storedUser)` does not run — the restore step yields no
user (and the raw empty token), not user `u` and token `""` as the claim's
universal round-trip asserts. -/
theorem claimC8_counterexample :
    (restoreAuth (loginOp ⟨"u1", "u@example.com", "U", "community"⟩ ""
        (⟨none, none⟩, ⟨none, none⟩)).2).user = none ∧
    (restoreAuth (loginOp ⟨"u1", "u@example.com", "U", "community"⟩ ""
        (⟨none, none⟩, ⟨none, none⟩)).2).token = some "" ∧
    AuthState.mk (some ⟨"u1", "u@example.com", "U", "community"⟩) (some "")
      ≠ AuthState.mk none (some "") := by
  refine ⟨by decide, by decide, by decide⟩

/-- C8 (amended): for every user record `u` and every non-empty (truthy)
token `t`, after `login(u, t)` the restore step yields exactly user `u` and
token `t` — JSON serialization then parsing of `u` is the identity — while
after `login(u, "")` the restore step yields no user; after `logout` it
yields no user and no token. -/
theorem claimC8_amended_session_roundtrip :
    (∀ (u : UserR) (t : String) (p : AuthState × Storage), t ≠ "" →
      restoreAuth (loginOp u t p).2 = AuthState.mk (some u) (some t)) ∧
    (∀ (u : UserR) (p : AuthState × Storage),
      (restoreAuth (loginOp u "" p).2).user = none) ∧
    (∀ p : AuthState × Storage,
      restoreAuth (logoutOp p).2 = AuthState.mk none none) ∧
    (∀ u : UserR, parseUser (stringifyUser u) = some u) := by
  refine ⟨?_, ?_, ?_, parseUser_stringifyUser⟩
  · intro u t p ht
    show restoreAuth ⟨some t, some (String.mk (stringifyUser u))⟩ = _
    unfold restoreAuth
    simp only
    rw [if_pos ⟨ht, stringifyUser_ne_empty u⟩]
    rw [show (String.mk (stringifyUser u)).toList = stringifyUser u from rfl,
      parseUser_stringifyUser]
  · intro u p
    show (restoreAuth ⟨some "", some (String.mk (stringifyUser u))⟩).user = none
    unfold restoreAuth
    simp only
    rw [if_neg (fun h => h.1 rfl)]
  · intro p
    rfl

/-- Witness for the amended C8 at a concrete user and non-empty token. -/
theorem claimC8_amended_session_roundtrip_witness :
    restoreAuth (loginOp ⟨"w1", "w@example.com", "W", "community"⟩ "tok9"
        (⟨none, none⟩, ⟨none, none⟩)).2
      = AuthState.mk (some ⟨"w1", "w@example.com", "W", "community"⟩) (some "tok9") :=
  claimC8_amended_session_roundtrip.1 ⟨"w1", "w@example.com", "W", "community"⟩ "tok9"
    (⟨none, none⟩, ⟨none, none⟩) (by decide)

/-! ### Claim C10 -/

/-- C10: the registration form enforces the 72-character password limit —
over the limit no initiate request is sent and the fixed error is shown;
otherwise exactly one initiate request is sent carrying name, email,
password and user_type `"community"`. -/
theorem claimC10_password_limit :
    ∀ st : RegPageState,
      (utf16Len st.password > 72 →
        (handleRegisterSubmit st).2 = none ∧
        (handleRegisterSubmit st).1.error
          = some "Password must be 72 characters or less.") ∧
      (utf16Len st.password ≤ 72 →
        (handleRegisterSubmit st).2
          = some (InitiateReq.mk st.name st.email st.password "community")) := by
  intro st
  constructor
  · intro h
    simp [handleRegisterSubmit, h]
  · intro h
    have hn : ¬ utf16Len st.password > 72 := by omega
    simp [handleRegisterSubmit, hn]

/-- Witness for C10 at concrete page states: a 73-character password is
blocked, an empty password is sent through. -/
theorem claimC10_password_limit_witness :
    (handleRegisterSubmit { regInitState with password :=
      "aaaaaaaaaaaaaaaaaaaaaaaaaaaaaaaaaaaaaaaaaaaaaaaaaaaaaaaaaaaaaaaaaaaaaaaaa" }).2
      = none ∧
    (handleRegisterSubmit regInitState).2
      = some (InitiateReq.mk "" "" "" "community") :=
  ⟨((claimC10_password_limit { regInitState with password :=
      "aaaaaaaaaaaaaaaaaaaaaaaaaaaaaaaaaaaaaaaaaaaaaaaaaaaaaaaaaaaaaaaaaaaaaaaaa" }).1
      (by decide)).1,
   (claimC10_password_limit regInitState).2 (by decide)⟩

/-- Witness for the amended C2 at concrete inputs. -/
theorem claimC2_amended_mainBranch_witness :
    (ksScan ("## key statistics--x--## data quality assessment!".toList)).isSome = true ∧
    parseKeyStatisticsL ("## Key Statistics\nA\n## Data Quality Assessment".toList)
      = amendedC2Pipeline ("A".toList) :=
  ⟨claimC2_amended_mainBranch.1 ("## key statistics--x--## data quality assessment!".toList)
    ⟨[], "## key statistics".toList, "--x--".toList,
      "## data quality assessment".toList, "!".toList, by decide, by decide, by decide⟩,
   claimC2_amended_mainBranch.2
     ("## Key Statistics\nA\n## Data Quality Assessment".toList) ("A".toList)
     (by decide) (by decide)⟩

end QuantumDash

